import Mathlib

/-!
Verification development for the stream-helper service: a shallow embedding of
the process-supervision core (Streamer, HealthMonitor, PlaylistManager and the
StreamService loop) into Lean, together with theorems settling the specified
properties.  Machine numbers that the source treats as JS numbers are embedded
as `Nat` (counters, delays, indices) or `ℚ` (durations in seconds, ratios);
fallible operations return `Except`/`Option`; the mutable fields of each class
become explicit state records threaded through the functions.  JS array
reference semantics (needed for the snapshot/aliasing property) are embedded
via an explicit heap of array cells.
-/

namespace StreamHelper

/-! ## String helpers

`strContains pat s` embeds JS `s.includes(pat)`: `true` iff `pat` occurs as a
contiguous substring of `s`. -/

def containsSub (pat : List Char) : List Char → Bool
  | [] => pat.isPrefixOf []
  | c :: rest => pat.isPrefixOf (c :: rest) || containsSub pat rest

def strContains (pat s : String) : Bool :=
  containsSub pat.data s.data

/-- JS regex `\w` character class: letters, digits and underscore. -/
def isWordChar (c : Char) : Bool :=
  c.isAlpha || c.isDigit || c = '_'

/-- Numeric value of a digit character. -/
def digitVal (c : Char) : Nat := c.toNat - '0'.toNat

/-! ## HealthMonitor (src/monitor.ts)

The mutable fields `retryCount : number` and `errors : string[]` become a
`Nat` and a `List String`.  `recordError` appends and, as in the source,
truncates to the most recent 50 entries (`this.errors.slice(-50)`). -/

/-- Embeds `HealthMonitor.getBackoffDelay`: `min(baseDelay * 2^retryCount, baseDelay * 60)`. -/
def getBackoffDelay (retryBackoffMs retryCount : Nat) : Nat :=
  let baseDelay := retryBackoffMs
  let exponentialDelay := baseDelay * 2 ^ retryCount
  let maxDelay := baseDelay * 60
  min exponentialDelay maxDelay

/-- Embeds `HealthMonitor.recordError` restricted to the error list: push the message,
then if the length exceeds 50 keep only the last 50 entries. -/
def recordError (errors : List String) (errorMsg : String) : List String :=
  let pushed := errors ++ [errorMsg]
  if pushed.length > 50 then pushed.drop (pushed.length - 50) else pushed

/-- Embeds `HealthMonitor.shouldRetry`: `retryCount < maxRetries`. -/
def shouldRetry (retryCount maxRetries : Nat) : Bool :=
  retryCount < maxRetries

/-! ## Streamer (src/streamer.ts): completion judgement and failure causes -/

/-- Embeds `Streamer.wasVideoCompleted`: unknown duration (0) counts as complete,
otherwise the percentage `streamDuration / videoDuration * 100` must reach 98. -/
def wasVideoCompleted (streamDuration videoDuration : ℚ) : Bool :=
  if videoDuration = 0 then true
  else decide (streamDuration / videoDuration * 100 ≥ 98)

/-- The seven mutually exclusive outcomes of the `Possible Causes` section of
`Streamer.generateErrorReport`. -/
inductive Cause where
  | oomKilled
  | corruptedInput
  | nvencError
  | networkIssue
  | conversionFailed
  | stoppedEarly
  | unknown
  deriving DecidableEq, Repr

/-- The ordered if/else chain selecting the `Possible Causes` block in
`Streamer.generateErrorReport`.  `exitCode` is an argument of the source
function but is never consulted by this chain. -/
def possibleCauses (signal : Option String) (exitCode : Option Int)
    (fullError : String) (streamDuration videoDuration : ℚ) : Cause :=
  if signal = some "SIGKILL" then .oomKilled
  else if strContains "Invalid data found" fullError then .corruptedInput
  else if strContains "NVENC" fullError || strContains "h264_nvenc" fullError then .nvencError
  else if strContains "Connection refused" fullError || strContains "RTMP" fullError then .networkIssue
  else if strContains "Conversion failed" fullError then .conversionFailed
  else if decide (streamDuration < videoDuration * (1/2 : ℚ)) then .stoppedEarly
  else .unknown

/-! ## Streamer.parseFFmpegOutput (src/streamer.ts)

The JS regexes of the source are embedded as specialised scanners over
`List Char`; each one returns the leftmost match, as `String.prototype.match`
does.  `scanFor f` tries `f` at every suffix, leftmost first. -/

def scanFor {α : Type} (f : List Char → Option α) : List Char → Option α
  | [] => f []
  | c :: rest =>
    match f (c :: rest) with
    | some v => some v
    | none => scanFor f rest

/-- Match `\d{2}:\d{2}:\d{2}\.\d{2}` at the head of the list, returning the
captured hours, minutes and centiseconds (`ss.ff` read as `100*ss + ff`, an
exact integer since the pattern fixes two fractional digits). -/
def matchClockHere : List Char → Option (Nat × Nat × Nat)
  | h1 :: h2 :: ':' :: m1 :: m2 :: ':' :: s1 :: s2 :: '.' :: f1 :: f2 :: _ =>
    if h1.isDigit && h2.isDigit && m1.isDigit && m2.isDigit &&
       s1.isDigit && s2.isDigit && f1.isDigit && f2.isDigit then
      some (10 * digitVal h1 + digitVal h2,
            10 * digitVal m1 + digitVal m2,
            (10 * digitVal s1 + digitVal s2) * 100 + 10 * digitVal f1 + digitVal f2)
    else none
  | _ => none

/-- Seconds value `hours * 3600 + minutes * 60 + parseFloat(ss.ff)`, as the
source computes from the captured clock groups (`ss + ff/100 = centis/100`). -/
def clockSeconds (t : Nat × Nat × Nat) : ℚ :=
  (t.1 : ℚ) * 3600 + (t.2.1 : ℚ) * 60 + (t.2.2 : ℚ) / 100

/-- Leftmost match of the literal `pre` immediately followed by a clock. -/
def findClockAfter (pre : List Char) (l : List Char) : Option (Nat × Nat × Nat) :=
  scanFor (fun s => if pre.isPrefixOf s then matchClockHere (s.drop pre.length) else none) l

/-- Regex `Input #\d+, (\w+),` at the head of the list: capture the container. -/
def matchInputHere : List Char → Option String
  | 'I' :: 'n' :: 'p' :: 'u' :: 't' :: ' ' :: '#' :: rest =>
    let ds := rest.takeWhile Char.isDigit
    if ds.isEmpty then none
    else
      match rest.drop ds.length with
      | ',' :: ' ' :: rest2 =>
        let ws := rest2.takeWhile isWordChar
        if ws.isEmpty then none
        else
          match rest2.drop ws.length with
          | ',' :: _ => some (String.mk ws)
          | _ => none
      | _ => none
  | _ => none

/-- Capture `(\w+)` right after the literal `pre` (regexes `Video: (\w+)` and
`Audio: (\w+)`). -/
def wordAfterHere (pre : List Char) (l : List Char) : Option String :=
  if pre.isPrefixOf l then
    let ws := (l.drop pre.length).takeWhile isWordChar
    if ws.isEmpty then none else some (String.mk ws)
  else none

/-- Holds (`true`) iff the first `k` elements exist and are all digits. -/
def digitRun (l : List Char) (k : Nat) : Bool :=
  (l.take k).length = k && (l.take k).all Char.isDigit

/-- Regex `(\d{3,4})x(\d{3,4})` at the head of the list: each group is greedy
(4 digits preferred over 3), mirroring the JS engine's backtracking. -/
def matchResHere (l : List Char) : Option (String × String) :=
  let g1 : Option Nat :=
    if digitRun l 4 && (l.get? 4 == some 'x') then some 4
    else if digitRun l 3 && (l.get? 3 == some 'x') then some 3
    else none
  match g1 with
  | none => none
  | some k =>
    let rest := l.drop (k + 1)
    let g2 : Option Nat :=
      if digitRun rest 4 then some 4
      else if digitRun rest 3 then some 3
      else none
    match g2 with
    | none => none
    | some k2 => some (String.mk (l.take k), String.mk (rest.take k2))

/-- Regex `(\d+(?:\.\d+)?)\s*fps` at the head of the list: capture the number. -/
def matchFpsHere (l : List Char) : Option String :=
  let ds := l.takeWhile Char.isDigit
  if ds.isEmpty then none
  else
    let rest := l.drop ds.length
    let capAndRest : List Char × List Char :=
      match rest with
      | '.' :: r2 =>
        let fs := r2.takeWhile Char.isDigit
        if fs.isEmpty then (ds, rest) else (ds ++ '.' :: fs, r2.drop fs.length)
      | _ => (ds, rest)
    let rest3 := capAndRest.2.dropWhile Char.isWhitespace
    if ['f', 'p', 's'].isPrefixOf rest3 then some (String.mk capAndRest.1) else none

/-- Regex `(\d+) Hz` at the head of the list: capture the digits. -/
def matchHzHere (l : List Char) : Option String :=
  let ds := l.takeWhile Char.isDigit
  if ds.isEmpty then none
  else if [' ', 'H', 'z'].isPrefixOf (l.drop ds.length) then some (String.mk ds)
  else none

/-- The `InputMetadata` fields the source collects into its `metadata` object.
Every field starts absent; the source records fps, resolution and sample rate
as the captured strings. -/
structure InputMetadata where
  duration : Option ℚ := none
  container : Option String := none
  videoCodec : Option String := none
  resolution : Option String := none
  fps : Option String := none
  audioCodec : Option String := none
  sampleRate : Option String := none
  deriving DecidableEq, Repr

/-- The per-session mutable fields `videoDuration`, `streamDuration` and the
`inputMetadata` object that `Streamer.parseFFmpegOutput` writes into. -/
structure ParseState where
  videoDuration : ℚ := 0
  streamDuration : ℚ := 0
  metadata : InputMetadata := {}
  deriving DecidableEq, Repr

/-! `Streamer.parseFFmpegOutput` processes one stderr chunk through four
independent guarded blocks (duration/container, video stream, audio stream,
progress time), each assigning its field whenever its regex matches — with no
write-once guard.  The blocks are embedded one definition each, composed in
source order by `parseFFmpegOutput`. -/

/-- First block of `parseFFmpegOutput`: `output.includes('Duration:')` guards
re-extraction of the total duration (into both `this.videoDuration` and
`metadata.duration`) and of the container name, each assigned on every
successful regex match. -/
def parseDurationBlock (st : ParseState) (output : String) : ParseState :=
  if strContains "Duration:" output then
    let st1 :=
      match findClockAfter "Duration: ".data output.data with
      | some t =>
        { st with videoDuration := clockSeconds t,
                  metadata := { st.metadata with duration := some (clockSeconds t) } }
      | none => st
    match scanFor matchInputHere output.data with
    | some c => { st1 with metadata := { st1.metadata with container := some c } }
    | none => st1
  else st

/-- Second block: video stream descriptor (codec, resolution, fps). -/
def parseVideoBlock (st : ParseState) (output : String) : ParseState :=
  if strContains "Stream #" output && strContains "Video:" output then
    let st1 :=
      match scanFor (wordAfterHere "Video: ".data) output.data with
      | some c => { st with metadata := { st.metadata with videoCodec := some c } }
      | none => st
    let st2 :=
      match scanFor matchResHere output.data with
      | some wh =>
        { st1 with metadata := { st1.metadata with resolution := some (wh.1 ++ "x" ++ wh.2) } }
      | none => st1
    match scanFor matchFpsHere output.data with
    | some f => { st2 with metadata := { st2.metadata with fps := some f } }
    | none => st2
  else st

/-- Third block: audio stream descriptor (codec, sample rate). -/
def parseAudioBlock (st : ParseState) (output : String) : ParseState :=
  if strContains "Stream #" output && strContains "Audio:" output then
    let st1 :=
      match scanFor (wordAfterHere "Audio: ".data) output.data with
      | some c => { st with metadata := { st.metadata with audioCodec := some c } }
      | none => st
    match scanFor matchHzHere output.data with
    | some s => { st1 with metadata := { st1.metadata with sampleRate := some s } }
    | none => st1
  else st

/-- Fourth block: the `time=` progress marker updates `streamDuration`. -/
def parseTimeBlock (st : ParseState) (output : String) : ParseState :=
  if strContains "time=" output then
    match findClockAfter "time=".data output.data with
    | some t => { st with streamDuration := clockSeconds t }
    | none => st
  else st

def parseFFmpegOutput (st : ParseState) (output : String) : ParseState :=
  parseTimeBlock
    (parseAudioBlock (parseVideoBlock (parseDurationBlock st output) output) output)
    output

/-! ## Streamer exit handler and start (src/streamer.ts) -/

/-- Outcome of the `exit` handler installed by `Streamer.start`: the returned
promise either resolves (optionally after the early-end warning) or rejects. -/
inductive SessionExit where
  | resolved (earlyWarning : Bool)
  | rejectedSignal (signal : String)
  | rejectedCode (code : Int)
  deriving DecidableEq, Repr

/-- The `exit`-event handler of `Streamer.start`: a signal rejects, a nonzero
non-null code rejects, a clean exit resolves — warning (but still resolving)
when the video was not judged completed and the code is exactly 0. -/
def streamerExitHandler (code : Option Int) (signal : Option String)
    (wasCompleted : Bool) : SessionExit :=
  match signal with
  | some s => .rejectedSignal s
  | none =>
    match code with
    | some c => if c ≠ 0 then .rejectedCode c else .resolved (!wasCompleted)
    | none => .resolved false

/-- The fields of `Streamer` that its guard clauses consult: the live child
process (if any) and the current video path. -/
structure StreamerState where
  process : Option Nat
  currentVideoPath : Option String
  deriving DecidableEq, Repr

/-- The guard clauses and spawn of `Streamer.start`: throw if a stream is
already running, throw if the input path does not exist (`existsSync` is the
environment parameter `fsExists`), otherwise spawn the process.  On a throw
the state is returned unchanged — the source throws before any assignment. -/
def Streamer.start (st : StreamerState) (videoPath : String)
    (fsExists : String → Bool) : Except String Unit × StreamerState :=
  if st.process.isSome then (.error "Stream already running", st)
  else if !(fsExists videoPath) then
    (.error ("Video file not found: " ++ videoPath), st)
  else (.ok (), { process := some 0, currentVideoPath := some videoPath })

/-! ## PlaylistManager.getNext (src/playlist.ts) -/

/-- The fields of `PlaylistManager` that `getNext` reads and writes. -/
structure PlaylistState (V : Type) where
  playlist : List V
  currentIndex : Nat
  deriving DecidableEq, Repr

/-- Embeds `PlaylistManager.getNext`: grab `playlist[currentIndex]`, increment the
index; at the end of the playlist either wrap (and optionally shuffle) when
`loopPlaylist` is set, or return `null`.  JS out-of-range indexing is `none`. -/
def getNext {V : Type} (loopPlaylist shufflePlaylist : Bool)
    (shuffleFn : List V → List V) (st : PlaylistState V) :
    Option V × PlaylistState V :=
  if st.playlist.length = 0 then (none, st)
  else
    let video := st.playlist.get? st.currentIndex
    let idx := st.currentIndex + 1
    if idx ≥ st.playlist.length then
      if loopPlaylist then
        let pl := if shufflePlaylist then shuffleFn st.playlist else st.playlist
        (video, ⟨pl, 0⟩)
      else (none, ⟨st.playlist, idx⟩)
    else (video, ⟨st.playlist, idx⟩)

/-- Runs `n` successive `getNext` calls, collecting the returned values. -/
def getNextSeq {V : Type} (loopPlaylist shufflePlaylist : Bool)
    (shuffleFn : List V → List V) :
    Nat → PlaylistState V → List (Option V) × PlaylistState V
  | 0, st => ([], st)
  | n + 1, st =>
    let r := getNext loopPlaylist shufflePlaylist shuffleFn st
    let rs := getNextSeq loopPlaylist shufflePlaylist shuffleFn n r.2
    (r.1 :: rs.1, rs.2)

/-! ## StreamService.streamLoop (src/index.ts) -/

/-- The `catch`-block of one loop iteration after a failed session:
`incrementRetry()`, stop the whole service when `shouldRetry()` is false,
otherwise sleep `getBackoffDelay()` and move on to the next video. -/
inductive FailureDecision where
  | sleepThenNext (newRetryCount delayMs : Nat)
  | stopService (finalRetryCount : Nat)
  deriving DecidableEq, Repr

def failureStep (maxRetries retryBackoffMs retryCount : Nat) : FailureDecision :=
  let r := retryCount + 1
  if shouldRetry r maxRetries then .sleepThenNext r (getBackoffDelay retryBackoffMs r)
  else .stopService r

/-- The monitor's retry counter after one loop iteration: a resolved session
runs `resetRetry()`, a rejected one runs `incrementRetry()`. -/
def retryCountAfterSession (retryCount : Nat) (e : SessionExit) : Nat :=
  match e with
  | .resolved _ => 0
  | .rejectedSignal _ => retryCount + 1
  | .rejectedCode _ => retryCount + 1

/-- How a run of `StreamService.streamLoop` ends (or is truncated). -/
inductive LoopEnd where
  | playlistEnd (retryCount : Nat)
  | stoppedMaxRetries (retryCount : Nat)
  | ranOutOfScript (retryCount : Nat) (pl : PlaylistState String)
  | emptyStall (retryCount : Nat)
  deriving DecidableEq, Repr

/-- Embeds `StreamService.streamLoop`, driven by a finite script assigning each
started session its exit: pull the next video (`getNext`, with shuffle
disabled), run the session, reset the retry counter on success, apply
`failureStep` on failure.  `ranOutOfScript` truncates the run when the script
is exhausted; `emptyStall` stands for the busy re-loop of an empty looping
playlist. -/
def streamLoopRun (loopPlaylist : Bool) (maxRetries retryBackoffMs : Nat) :
    List SessionExit → PlaylistState String → Nat → LoopEnd
  | [], pl, retryCount =>
    if (getNext loopPlaylist false id pl).1.isNone then
      (if loopPlaylist then .emptyStall retryCount else .playlistEnd retryCount)
    else .ranOutOfScript retryCount (getNext loopPlaylist false id pl).2
  | e :: rest, pl, retryCount =>
    if (getNext loopPlaylist false id pl).1.isNone then
      (if loopPlaylist then .emptyStall retryCount else .playlistEnd retryCount)
    else
      match e with
      | .resolved _ =>
        streamLoopRun loopPlaylist maxRetries retryBackoffMs rest
          (getNext loopPlaylist false id pl).2 0
      | _ =>
        match failureStep maxRetries retryBackoffMs retryCount with
        | .sleepThenNext r _ =>
          streamLoopRun loopPlaylist maxRetries retryBackoffMs rest
            (getNext loopPlaylist false id pl).2 r
        | .stopService r => .stoppedMaxRetries r

/-! ## HealthMonitor.getStatus and array aliasing (src/monitor.ts)

`getStatus` returns `{ ...this.status }` — a shallow copy, so the `errors`
field of the returned object is the same array reference as
`this.status.errors`.  To state this, arrays live on an explicit heap and
objects hold references (indices) into it. -/

structure Heap where
  cells : List (List String)
  deriving DecidableEq, Repr

def Heap.get (h : Heap) (r : Nat) : List String := h.cells.getD r []

def Heap.set (h : Heap) (r : Nat) (v : List String) : Heap := ⟨h.cells.set r v⟩

def Heap.alloc (h : Heap) (v : List String) : Nat × Heap :=
  (h.cells.length, ⟨h.cells ++ [v]⟩)

/-- The monitor fields relevant to the snapshot property: `this.errors` and
`this.status.errors` are array references; the retry counters are values. -/
structure MonitorState where
  errorsRef : Nat
  statusErrorsRef : Nat
  retryCount : Nat
  statusRetryCount : Nat
  deriving DecidableEq, Repr

/-- The `HealthMonitor` constructor: `this.errors = []` and
`this.status.errors = []` allocate two distinct empty arrays. -/
def HealthMonitor.new (h : Heap) : MonitorState × Heap :=
  let a1 := h.alloc []
  let a2 := a1.2.alloc []
  ({ errorsRef := a1.1, statusErrorsRef := a2.1, retryCount := 0, statusRetryCount := 0 }, a2.2)

/-- Embeds `HealthMonitor.recordError` with reference semantics: `push` mutates the
array in place; `slice(-50)` allocates a fresh array and repoints
`this.errors`; finally `this.status.errors = this.errors` copies the
reference. -/
def recordErrorRef (st : MonitorState) (h : Heap) (msg : String) :
    MonitorState × Heap :=
  let h1 := h.set st.errorsRef (h.get st.errorsRef ++ [msg])
  let arr := h1.get st.errorsRef
  if arr.length > 50 then
    let a := h1.alloc (arr.drop (arr.length - 50))
    ({ st with errorsRef := a.1, statusErrorsRef := a.1 }, a.2)
  else ({ st with statusErrorsRef := st.errorsRef }, h1)

/-- The part of the returned status object relevant to aliasing: the spread
copies the scalar `retryCount` by value but the `errors` array by reference. -/
structure StatusView where
  retryCount : Nat
  errorsRef : Nat
  deriving DecidableEq, Repr

/-- Embeds `HealthMonitor.getStatus`: `return { ...this.status }` (the `updateUptime`
side effect touches only the uptime field, which is not modelled). -/
def getStatus (st : MonitorState) : StatusView :=
  { retryCount := st.statusRetryCount, errorsRef := st.statusErrorsRef }

/-! ## Theorems -/

/-- C2: for every retry count `n` and base delay `base > 0`, the backoff delay
equals `min(base * 2^n, base * 60)`; as a function of `n` it is strictly
increasing until it reaches the cap `base * 60` and constant afterwards. -/
theorem claim_C2_backoff (base n : Nat) (hbase : 0 < base) :
    getBackoffDelay base n = min (base * 2 ^ n) (base * 60) ∧
    (getBackoffDelay base n < base * 60 →
      getBackoffDelay base n < getBackoffDelay base (n + 1)) ∧
    (getBackoffDelay base n = base * 60 →
      getBackoffDelay base (n + 1) = base * 60) := by
  unfold getBackoffDelay
  have hpow : base * 2 ^ n < base * 2 ^ (n + 1) := by
    have h2 : (2 : Nat) ^ n < 2 ^ (n + 1) :=
      Nat.pow_lt_pow_right (by norm_num) (Nat.lt_succ_self n)
    exact mul_lt_mul_of_pos_left h2 hbase
  refine ⟨rfl, ?_, ?_⟩
  · intro hlt
    have hexp : base * 2 ^ n < base * 60 := by
      rcases min_lt_iff.mp hlt with h | h
      · exact h
      · exact absurd h (lt_irrefl _)
    calc min (base * 2 ^ n) (base * 60) ≤ base * 2 ^ n := min_le_left _ _
      _ < min (base * 2 ^ (n + 1)) (base * 60) := lt_min hpow hexp
  · intro heq
    have hge : base * 60 ≤ base * 2 ^ n := min_eq_right_iff.mp heq
    exact min_eq_right (hge.trans hpow.le)

theorem claim_C2_witness :
    0 < 1000 ∧
    (getBackoffDelay 1000 5 = min (1000 * 2 ^ 5) (1000 * 60) ∧
      (getBackoffDelay 1000 5 < 1000 * 60 →
        getBackoffDelay 1000 5 < getBackoffDelay 1000 (5 + 1)) ∧
      (getBackoffDelay 1000 5 = 1000 * 60 →
        getBackoffDelay 1000 (5 + 1) = 1000 * 60)) :=
  ⟨by norm_num, claim_C2_backoff 1000 5 (by norm_num)⟩

/-- C3: a session is judged complete iff the completion ratio reaches 0.98,
inclusive at exactly 98%: with total duration 600 a clean exit at 587 seconds
is judged premature while 588 is judged completed, and an unknown total
duration (0) is always judged complete. -/
theorem claim_C3_completion_boundary :
    (∀ p d : ℚ, 0 < d → (wasVideoCompleted p d = true ↔ (0.98 : ℚ) ≤ p / d)) ∧
    wasVideoCompleted 587 600 = false ∧
    wasVideoCompleted 588 600 = true ∧
    (∀ p : ℚ, wasVideoCompleted p 0 = true) := by
  refine ⟨?_, by norm_num [wasVideoCompleted], by norm_num [wasVideoCompleted], ?_⟩
  · intro p d hd
    rw [wasVideoCompleted, if_neg hd.ne']
    rw [decide_eq_true_eq, ge_iff_le]
    constructor
    · intro h
      nlinarith
    · intro h
      nlinarith
  · intro p
    simp [wasVideoCompleted]

theorem claim_C3_witness :
    (0 : ℚ) < 600 ∧ (wasVideoCompleted 588 600 = true ↔ (0.98 : ℚ) ≤ 588 / 600) :=
  ⟨by norm_num, claim_C3_completion_boundary.1 588 600 (by norm_num)⟩

/-- C4: the failure classifier reports the out-of-memory cause iff the
termination signal is SIGKILL, for every exit code, diagnostic text and
completion state; in particular SIGKILL wins over the corrupt-input text
marker of a later rule. -/
theorem claim_C4_oom_iff_sigkill :
    (∀ (signal : Option String) (exitCode : Option Int) (fullError : String)
      (sd vd : ℚ),
      possibleCauses signal exitCode fullError sd vd = Cause.oomKilled ↔
        signal = some "SIGKILL") ∧
    possibleCauses (some "SIGKILL") (some 1) "Invalid data found" 0 100 =
      Cause.oomKilled := by
  constructor
  · intro signal exitCode fullError sd vd
    unfold possibleCauses
    split_ifs with h1 h2 h3 h4 h5 h6 <;> simp_all
  · decide

/-- C9: `Streamer.start` fails whenever the input path does not exist or a
process is already running, leaving the state untouched (no process spawned);
and a successful start happens only from the idle state, so at most one
encoder process owned by the Streamer is alive at any instant. -/
theorem claim_C9_start_guards (st : StreamerState) (p : String)
    (fs : String → Bool) :
    ((st.process.isSome ∨ fs p = false) →
      ∃ msg, Streamer.start st p fs = (.error msg, st)) ∧
    (∀ u st', Streamer.start st p fs = (.ok u, st') →
      st.process = none ∧ st'.process = some 0) := by
  constructor
  · intro h
    unfold Streamer.start
    by_cases hp : st.process.isSome
    · exact ⟨"Stream already running", by rw [if_pos hp]⟩
    · have hf : fs p = false := by
        rcases h with h | h
        · exact absurd h hp
        · exact h
      refine ⟨"Video file not found: " ++ p, ?_⟩
      rw [if_neg hp, if_pos (by rw [hf]; rfl)]
  · intro u st' hok
    unfold Streamer.start at hok
    split_ifs at hok with h1 h2
    · exact absurd hok (by simp)
    · exact absurd hok (by simp)
    · refine ⟨Option.not_isSome_iff_eq_none.mp h1, ?_⟩
      have h2' := congrArg Prod.snd hok
      simp only at h2'
      rw [← h2']

theorem claim_C9_witness :
    ((StreamerState.mk (some 0) none).process.isSome ∨
      ((fun _ => true) "a.mp4") = false) ∧
    ∃ msg, Streamer.start ⟨some 0, none⟩ "a.mp4" (fun _ => true) =
      (.error msg, ⟨some 0, none⟩) :=
  ⟨Or.inl (by decide),
    (claim_C9_start_guards ⟨some 0, none⟩ "a.mp4" (fun _ => true)).1 (Or.inl (by decide))⟩

/-- C1 counterexample: a session with total duration 600 and progress 300
(completion ratio 0.5 < 0.98) that exits cleanly (code 0, no signal) makes the
exit handler resolve (with the early-end warning), and the supervisor loop
then resets the retry counter from 3 to 0 — refuting the claim that the
counter is not reset for a clean exit with completion ratio below 0.98. -/
theorem claim_C1_counterexample :
    wasVideoCompleted 300 600 = false ∧
    (300 : ℚ) / 600 < 0.98 ∧
    streamerExitHandler (some 0) none (wasVideoCompleted 300 600) =
      SessionExit.resolved true ∧
    retryCountAfterSession 3
      (streamerExitHandler (some 0) none (wasVideoCompleted 300 600)) = 0 := by
  refine ⟨by norm_num [wasVideoCompleted], by norm_num, ?_, ?_⟩ <;>
    norm_num [wasVideoCompleted, streamerExitHandler, retryCountAfterSession]

/-- C1 (amended): the retry counter resets after every session whose process
terminated cleanly (no signal and exit code 0 or null), regardless of the
completion ratio — a clean exit below 98% only adds a warning to the resolved
session; a session rejected with a signal or a nonzero exit code increments
the counter instead of resetting it. -/
theorem claim_C1_reset_on_clean_exit (code : Option Int) (signal : Option String)
    (completed : Bool) (r : Nat) :
    (signal = none → code = some 0 ∨ code = none →
      retryCountAfterSession r (streamerExitHandler code signal completed) = 0) ∧
    (signal ≠ none ∨ (∃ c, code = some c ∧ c ≠ 0) →
      retryCountAfterSession r (streamerExitHandler code signal completed) = r + 1) := by
  constructor
  · intro hs hc
    subst hs
    rcases hc with hc | hc <;> subst hc <;>
      simp [streamerExitHandler, retryCountAfterSession]
  · intro h
    rcases h with hs | ⟨c, hc, hcne⟩
    · rcases signal with _ | s
      · exact absurd rfl hs
      · simp [streamerExitHandler, retryCountAfterSession]
    · subst hc
      rcases signal with _ | s
      · simp [streamerExitHandler, retryCountAfterSession, hcne]
      · simp [streamerExitHandler, retryCountAfterSession]

theorem claim_C1_witness :
    ((none : Option String) = none ∧
      ((some 0 : Option Int) = some 0 ∨ (some 0 : Option Int) = none)) ∧
    retryCountAfterSession 7 (streamerExitHandler (some 0) none false) = 0 :=
  ⟨⟨rfl, Or.inl rfl⟩,
    (claim_C1_reset_on_clean_exit (some 0) none false 7).1 rfl (Or.inl rfl)⟩

/-- Auxiliary: folding `recordError` from any start list of length at most 50
keeps exactly the last 50 of all messages seen, in arrival order. -/
theorem recordError_foldl (msgs : List String) :
    ∀ start : List String, start.length ≤ 50 →
      msgs.foldl recordError start =
        (start ++ msgs).drop (start.length + msgs.length - 50) := by
  induction msgs with
  | nil =>
    intro start h
    simp [Nat.sub_eq_zero_of_le h]
  | cons m rest ih =>
    intro start h
    rw [List.foldl_cons]
    by_cases hlt : start.length + 1 ≤ 50
    · have hrec : recordError start m = start ++ [m] := by
        unfold recordError
        rw [if_neg (by simp; omega)]
      rw [hrec, ih (start ++ [m]) (by simp; omega)]
      have hlen : (start ++ [m]).length + rest.length - 50 =
          start.length + (rest.length + 1) - 50 := by simp; omega
      rw [hlen, List.append_assoc]
      simp
    · have h50 : start.length = 50 := by omega
      have hrec : recordError start m = (start ++ [m]).drop 1 := by
        unfold recordError
        rw [if_pos (by simp; omega)]
        congr 1
        simp
        omega
      have hl1 : ((start ++ [m]).drop 1).length = 50 := by simp [h50]
      have hih := ih ((start ++ [m]).drop 1) (le_of_eq hl1)
      rw [hrec, hih, hl1]
      have hsplit : (start ++ [m]).drop 1 ++ rest = ((start ++ [m]) ++ rest).drop 1 :=
        (List.drop_append_of_le_length (by simp)).symm
      rw [hsplit, List.drop_drop]
      have hamt : 1 + (50 + rest.length - 50) = start.length + (m :: rest).length - 50 := by
        simp
        omega
      rw [hamt, List.append_assoc]
      simp

/-- C6: the health tracker's error list never exceeds 50 entries and keeps the
most recent messages in arrival order; after 55 sequential `recordError` calls
the list is exactly the last 50 messages, so with distinct messages the first
5 are absent. -/
theorem claim_C6_error_log_cap :
    (∀ msgs : List String,
      (msgs.foldl recordError []).length ≤ 50 ∧
      msgs.foldl recordError [] = msgs.drop (msgs.length - 50)) ∧
    (∀ msgs : List String, msgs.length = 55 →
      (msgs.foldl recordError []).length = 50 ∧
      msgs.foldl recordError [] = msgs.drop 5 ∧
      (msgs.Nodup → ∀ x ∈ msgs.take 5, x ∉ msgs.foldl recordError [])) := by
  have key : ∀ msgs : List String,
      msgs.foldl recordError [] = msgs.drop (msgs.length - 50) := by
    intro msgs
    have := recordError_foldl msgs [] (by simp)
    simpa using this
  constructor
  · intro msgs
    refine ⟨?_, key msgs⟩
    rw [key msgs, List.length_drop]
    omega
  · intro msgs hlen
    have h5 : msgs.length - 50 = 5 := by omega
    refine ⟨?_, by rw [key msgs, h5], ?_⟩
    · rw [key msgs, List.length_drop]
      omega
    · intro hnd x hx
      rw [key msgs, h5]
      have hdisj : List.Disjoint (msgs.take 5) (msgs.drop 5) :=
        List.disjoint_take_drop hnd (le_refl 5)
      exact fun hmem => hdisj hx hmem

theorem claim_C6_witness :
    (((List.range 55).map toString).length = 55 ∧
      ((List.range 55).map toString).Nodup) ∧
    ((((List.range 55).map toString).foldl recordError []).length = 50 ∧
      ((List.range 55).map toString).foldl recordError [] =
        ((List.range 55).map toString).drop 5 ∧
      ∀ x ∈ ((List.range 55).map toString).take 5,
        x ∉ ((List.range 55).map toString).foldl recordError []) := by
  have hlen : ((List.range 55).map toString).length = 55 := by decide
  have hnd : ((List.range 55).map toString).Nodup := by decide
  have h := claim_C6_error_log_cap.2 ((List.range 55).map toString) hlen
  exact ⟨⟨hlen, hnd⟩, ⟨h.1, h.2.1, h.2.2 hnd⟩⟩

/-- Auxiliary: with `loopPlaylist` false, running `getNext` until the end of
the playlist yields the items before the last, then `none` in place of the
last item, leaving the index at the playlist length. -/
theorem getNextSeq_no_loop {V : Type} (sp : Bool) (f : List V → List V)
    (l : List V) :
    ∀ (k i : Nat), i + k = l.length → 0 < k →
      getNextSeq false sp f k ⟨l, i⟩ =
        (((l.drop i).take (k - 1)).map some ++ [none], ⟨l, l.length⟩) := by
  intro k
  induction k with
  | zero => intro i _ h0; exact absurd h0 (lt_irrefl 0)
  | succ k ih =>
    intro i hik _
    have hi : i < l.length := by omega
    have hvid : l.get? i = some l[i] := by
      rw [List.get?_eq_getElem?, List.getElem?_eq_getElem hi]
    rcases Nat.eq_zero_or_pos k with hk0 | hkpos
    · subst hk0
      have hidx : i + 1 = l.length := by omega
      show (_, _) = _
      rw [getNextSeq, getNext]
      rw [if_neg (by dsimp only; omega), if_pos (by dsimp only; omega)]
      simp only [Bool.false_eq_true, if_false, getNextSeq]
      rw [hidx]
      simp
    · have hlt : i + 1 < l.length := by omega
      rw [getNextSeq, getNext]
      rw [if_neg (by dsimp only; omega), if_neg (by dsimp only; omega)]
      simp only
      rw [ih (i + 1) (by omega) hkpos, hvid]
      have hdrop : l.drop i = l[i] :: l.drop (i + 1) := List.drop_eq_getElem_cons hi
      rw [hdrop]
      have htake : (l[i] :: l.drop (i + 1)).take (k + 1 - 1) =
          l[i] :: (l.drop (i + 1)).take (k - 1) := by
        have : k + 1 - 1 = (k - 1) + 1 := by omega
        rw [this, List.take_succ_cons]
      rw [htake]
      simp

/-- Auxiliary: with `loopPlaylist` true, running `getNext` until the end of
the playlist yields every remaining item (the last one included) and wraps
the index to 0, shuffling the playlist when enabled. -/
theorem getNextSeq_loop {V : Type} (sp : Bool) (f : List V → List V)
    (l : List V) :
    ∀ (k i : Nat), i + k = l.length → 0 < k →
      getNextSeq true sp f k ⟨l, i⟩ =
        ((l.drop i).map some, ⟨if sp then f l else l, 0⟩) := by
  intro k
  induction k with
  | zero => intro i _ h0; exact absurd h0 (lt_irrefl 0)
  | succ k ih =>
    intro i hik _
    have hi : i < l.length := by omega
    have hvid : l.get? i = some l[i] := by
      rw [List.get?_eq_getElem?, List.getElem?_eq_getElem hi]
    have hdrop : l.drop i = l[i] :: l.drop (i + 1) := List.drop_eq_getElem_cons hi
    rcases Nat.eq_zero_or_pos k with hk0 | hkpos
    · subst hk0
      have hidx : i + 1 = l.length := by omega
      show (_, _) = _
      rw [getNextSeq, getNext]
      rw [if_neg (by dsimp only; omega), if_pos (by dsimp only; omega), if_pos rfl]
      simp only [getNextSeq]
      rw [hvid, hdrop]
      have : l.drop (i + 1) = [] := by rw [hidx]; exact List.drop_length l
      rw [this, List.map_cons, List.map_nil]
    · have hlt : i + 1 < l.length := by omega
      rw [getNextSeq, getNext]
      rw [if_neg (by dsimp only; omega), if_neg (by dsimp only; omega)]
      simp only
      rw [ih (i + 1) (by omega) hkpos, hvid, hdrop, List.map_cons]

/-- C10: with `loopPlaylist` false the playlist's final element is never
yielded — over a full pass of `n = length` calls, `getNext` returns the first
`n - 1` items and then `null` in place of the last one; with `loopPlaylist`
true every item including the last is yielded and the position wraps to the
start (shuffling when enabled). -/
theorem claim_C10_getNext_end {V : Type} (l : List V) (sp : Bool)
    (f : List V → List V) (h : l ≠ []) :
    getNextSeq false sp f l.length ⟨l, 0⟩ =
      ((l.take (l.length - 1)).map some ++ [none], ⟨l, l.length⟩) ∧
    getNextSeq true sp f l.length ⟨l, 0⟩ =
      (l.map some, ⟨if sp then f l else l, 0⟩) := by
  have hpos : 0 < l.length := List.length_pos.mpr h
  constructor
  · have := getNextSeq_no_loop sp f l l.length 0 (by omega) hpos
    simpa using this
  · have := getNextSeq_loop sp f l l.length 0 (by omega) hpos
    simpa using this

theorem claim_C10_witness :
    (["a", "b", "c"] : List String) ≠ [] ∧
    getNextSeq false false id 3 (⟨["a", "b", "c"], 0⟩ : PlaylistState String) =
      ([some "a", some "b", none], ⟨["a", "b", "c"], 3⟩) ∧
    getNextSeq true false id 3 (⟨["a", "b", "c"], 0⟩ : PlaylistState String) =
      ([some "a", some "b", some "c"], ⟨["a", "b", "c"], 0⟩) := by
  have h := claim_C10_getNext_end ["a", "b", "c"] false id (by decide)
  exact ⟨by decide, h.1, h.2⟩

/-- Auxiliary: on a nonempty looping playlist with an in-range index,
`getNext` always yields an item, preserves the playlist and keeps the index
in range. -/
theorem getNext_loop_some (pl : PlaylistState String) (h1 : pl.playlist ≠ [])
    (h2 : pl.currentIndex < pl.playlist.length) :
    ∃ v pl', getNext true false id pl = (some v, pl') ∧
      pl'.playlist = pl.playlist ∧ pl'.currentIndex < pl'.playlist.length := by
  obtain ⟨l, i⟩ := pl
  dsimp only at h1 h2
  have hvid : l.get? i = some l[i] := by
    rw [List.get?_eq_getElem?, List.getElem?_eq_getElem h2]
  by_cases hw : i + 1 ≥ l.length
  · refine ⟨l[i], ⟨l, 0⟩, ?_, rfl, by dsimp only; omega⟩
    rw [getNext]
    rw [if_neg (by dsimp only; omega), if_pos (by dsimp only; omega)]
    dsimp only
    rw [hvid]
    simp
  · refine ⟨l[i], ⟨l, i + 1⟩, ?_, rfl, by dsimp only; omega⟩
    rw [getNext]
    rw [if_neg (by dsimp only; omega), if_neg (by dsimp only; omega)]
    dsimp only
    rw [hvid]

/-- Auxiliary: `shouldRetry` evaluations for `failureStep`. -/
theorem failureStep_continue (mR base r : Nat) (h : r + 1 < mR) :
    failureStep mR base r =
      FailureDecision.sleepThenNext (r + 1) (getBackoffDelay base (r + 1)) := by
  have hsr : shouldRetry (r + 1) mR = true := by
    unfold shouldRetry
    simpa using h
  simp [failureStep, hsr]

theorem failureStep_stop (mR base r : Nat) (h : ¬(r + 1 < mR)) :
    failureStep mR base r = FailureDecision.stopService (r + 1) := by
  have hsr : shouldRetry (r + 1) mR = false := by
    unfold shouldRetry
    simpa using h
  simp [failureStep, hsr]

/-- Auxiliary: one failed session with budget left continues the loop with the
advanced playlist state and the incremented retry counter. -/
theorem streamLoopRun_fail_cons (lp : Bool) (mR base r : Nat)
    (pl pl' : PlaylistState String) (v sig : String)
    (script : List SessionExit)
    (hg : getNext lp false id pl = (some v, pl')) (h : r + 1 < mR) :
    streamLoopRun lp mR base (SessionExit.rejectedSignal sig :: script) pl r =
      streamLoopRun lp mR base script pl' (r + 1) := by
  rw [streamLoopRun, hg, failureStep_continue mR base r h]
  simp
  intro w hw
  exact SessionExit.noConfusion hw

/-- Auxiliary: a resolved session continues the loop with the advanced
playlist state and the retry counter reset to 0. -/
theorem streamLoopRun_success_cons (lp : Bool) (mR base r : Nat)
    (pl pl' : PlaylistState String) (v : String) (w : Bool)
    (script : List SessionExit)
    (hg : getNext lp false id pl = (some v, pl')) :
    streamLoopRun lp mR base (SessionExit.resolved w :: script) pl r =
      streamLoopRun lp mR base script pl' 0 := by
  rw [streamLoopRun, hg]
  simp

/-- Auxiliary: `k` consecutive failures exhaust a budget of `r + k = mR`,
stopping the whole service with retry count `mR`. -/
theorem streamLoopRun_failures (mR base : Nat) (sig : String) :
    ∀ (k r : Nat) (pl : PlaylistState String) (rest : List SessionExit),
      pl.playlist ≠ [] → pl.currentIndex < pl.playlist.length →
      r + k = mR → 0 < k →
      streamLoopRun true mR base
        (List.replicate k (SessionExit.rejectedSignal sig) ++ rest) pl r =
        LoopEnd.stoppedMaxRetries mR := by
  intro k
  induction k with
  | zero => intro r pl rest _ _ _ h0; exact absurd h0 (lt_irrefl 0)
  | succ k ih =>
    intro r pl rest h1 h2 hrk _
    obtain ⟨v, pl', hg, hpl, hidx⟩ := getNext_loop_some pl h1 h2
    rw [List.replicate_succ, List.cons_append]
    rcases Nat.eq_zero_or_pos k with hk0 | hkpos
    · subst hk0
      rw [streamLoopRun, hg, failureStep_stop mR base r (by omega)]
      have hr1 : r + 1 = mR := by omega
      simp [hr1]
      intro w hw
      exact SessionExit.noConfusion hw
    · rw [streamLoopRun_fail_cons true mR base r pl pl' v sig _ hg (by omega)]
      exact ih (r + 1) pl' rest (by rw [hpl]; exact h1) hidx (by omega) hkpos

/-- C7: the retry budget is global — from a fresh budget, `maxRetries`
consecutive failed sessions with no intervening success terminate the whole
service with retry count `maxRetries`, never starting another session; a
resolved session resets the budget to 0 no matter how high the counter was;
and a non-terminating failure sleeps the backoff delay
`min(base * 2^(count+1), base * 60)` and then continues the loop with the
advanced playlist position (the failed item is not re-queued). -/
theorem claim_C7_retry_budget :
    (∀ (mR base : Nat) (pl : PlaylistState String) (sig : String)
      (rest : List SessionExit),
      pl.playlist ≠ [] → pl.currentIndex < pl.playlist.length → 0 < mR →
      streamLoopRun true mR base
        (List.replicate mR (SessionExit.rejectedSignal sig) ++ rest) pl 0 =
        LoopEnd.stoppedMaxRetries mR) ∧
    (∀ (r : Nat) (w : Bool),
      retryCountAfterSession r (SessionExit.resolved w) = 0) ∧
    (∀ (mR base r : Nat), r + 1 < mR →
      failureStep mR base r =
        FailureDecision.sleepThenNext (r + 1) (min (base * 2 ^ (r + 1)) (base * 60))) ∧
    (∀ (lp : Bool) (mR base r : Nat) (pl pl' : PlaylistState String)
      (v sig : String) (script : List SessionExit),
      getNext lp false id pl = (some v, pl') → r + 1 < mR →
      streamLoopRun lp mR base (SessionExit.rejectedSignal sig :: script) pl r =
        streamLoopRun lp mR base script pl' (r + 1)) ∧
    (∀ (lp : Bool) (mR base r : Nat) (pl pl' : PlaylistState String)
      (v : String) (w : Bool) (script : List SessionExit),
      getNext lp false id pl = (some v, pl') →
      streamLoopRun lp mR base (SessionExit.resolved w :: script) pl r =
        streamLoopRun lp mR base script pl' 0) := by
  refine ⟨?_, ?_, ?_, ?_, ?_⟩
  · intro mR base pl sig rest h1 h2 hmr
    exact streamLoopRun_failures mR base sig mR 0 pl rest h1 h2 (by omega) hmr
  · intro r w
    rfl
  · intro mR base r h
    rw [failureStep_continue mR base r h]
    rfl
  · intro lp mR base r pl pl' v sig script hg h
    exact streamLoopRun_fail_cons lp mR base r pl pl' v sig script hg h
  · intro lp mR base r pl pl' v w script hg
    exact streamLoopRun_success_cons lp mR base r pl pl' v w script hg

theorem claim_C7_witness :
    ((["a", "b"] : List String) ≠ [] ∧
      (0 : Nat) < (["a", "b"] : List String).length ∧ (0 : Nat) < 3) ∧
    streamLoopRun true 3 1000
      (List.replicate 3 (SessionExit.rejectedSignal "SIGKILL") ++ [])
      ⟨["a", "b"], 0⟩ 0 = LoopEnd.stoppedMaxRetries 3 := by
  refine ⟨⟨by decide, by decide, by decide⟩, ?_⟩
  exact claim_C7_retry_budget.1 3 1000 ⟨["a", "b"], 0⟩ "SIGKILL" []
    (by decide) (by decide) (by decide)

/-! ### Parser block lemmas (for the metadata overwrite property) -/

/-- Auxiliary: a chunk whose duration regex matches sets `videoDuration` and
`metadata.duration` to the newly extracted value, whatever the previous state
held. -/
theorem parseDurationBlock_sets (st : ParseState) (c : String)
    (t : Nat × Nat × Nat) (h1 : strContains "Duration:" c = true)
    (hm : findClockAfter "Duration: ".data c.data = some t) :
    (parseDurationBlock st c).videoDuration = clockSeconds t ∧
    (parseDurationBlock st c).metadata.duration = some (clockSeconds t) := by
  unfold parseDurationBlock
  rw [h1, if_pos rfl, hm]
  dsimp only
  split <;> exact ⟨rfl, rfl⟩

/-- Auxiliary: a chunk whose video-codec regex matches sets
`metadata.videoCodec` to the newly captured codec, whatever the previous state
held. -/
theorem parseVideoBlock_codec (st : ParseState) (c : String) (w : String)
    (h1 : strContains "Stream #" c = true) (h2 : strContains "Video:" c = true)
    (hm : scanFor (wordAfterHere "Video: ".data) c.data = some w) :
    (parseVideoBlock st c).metadata.videoCodec = some w := by
  unfold parseVideoBlock
  rw [h1, h2, if_pos (show (true && true) = true from rfl), hm]
  dsimp only
  split <;> split <;> rfl

/-- Auxiliary: the video block never touches the duration fields. -/
theorem parseVideoBlock_pres (st : ParseState) (c : String) :
    (parseVideoBlock st c).videoDuration = st.videoDuration ∧
    (parseVideoBlock st c).metadata.duration = st.metadata.duration := by
  unfold parseVideoBlock
  constructor <;> (repeat' split) <;> rfl

/-- Auxiliary: the audio block never touches the duration fields or the video
codec. -/
theorem parseAudioBlock_pres (st : ParseState) (c : String) :
    (parseAudioBlock st c).videoDuration = st.videoDuration ∧
    (parseAudioBlock st c).metadata.duration = st.metadata.duration ∧
    (parseAudioBlock st c).metadata.videoCodec = st.metadata.videoCodec := by
  unfold parseAudioBlock
  refine ⟨?_, ?_, ?_⟩ <;> (repeat' split) <;> rfl

/-- Auxiliary: the progress block only updates `streamDuration`. -/
theorem parseTimeBlock_pres (st : ParseState) (c : String) :
    (parseTimeBlock st c).videoDuration = st.videoDuration ∧
    (parseTimeBlock st c).metadata = st.metadata := by
  unfold parseTimeBlock
  constructor <;> (repeat' split) <;> rfl

/-- Auxiliary: a full `parseFFmpegOutput` step on a duration-bearing chunk
overwrites the duration fields with the chunk's value, for any prior state. -/
theorem parseFFmpegOutput_duration (st : ParseState) (c : String)
    (t : Nat × Nat × Nat) (h1 : strContains "Duration:" c = true)
    (hm : findClockAfter "Duration: ".data c.data = some t) :
    (parseFFmpegOutput st c).videoDuration = clockSeconds t ∧
    (parseFFmpegOutput st c).metadata.duration = some (clockSeconds t) := by
  unfold parseFFmpegOutput
  have hd := parseDurationBlock_sets st c t h1 hm
  have hv := parseVideoBlock_pres (parseDurationBlock st c) c
  have ha := parseAudioBlock_pres (parseVideoBlock (parseDurationBlock st c) c) c
  have ht := parseTimeBlock_pres
    (parseAudioBlock (parseVideoBlock (parseDurationBlock st c) c) c) c
  constructor
  · rw [ht.1, ha.1, hv.1, hd.1]
  · rw [ht.2, ha.2.1, hv.2, hd.2]

/-- Auxiliary: a full `parseFFmpegOutput` step on a video-descriptor chunk
overwrites the captured video codec, for any prior state. -/
theorem parseFFmpegOutput_codec (st : ParseState) (c : String) (w : String)
    (h1 : strContains "Stream #" c = true) (h2 : strContains "Video:" c = true)
    (hm : scanFor (wordAfterHere "Video: ".data) c.data = some w) :
    (parseFFmpegOutput st c).metadata.videoCodec = some w := by
  unfold parseFFmpegOutput
  have hv := parseVideoBlock_codec (parseDurationBlock st c) c w h1 h2 hm
  have ha := (parseAudioBlock_pres (parseVideoBlock (parseDurationBlock st c) c) c).2.2
  have ht := (parseTimeBlock_pres
    (parseAudioBlock (parseVideoBlock (parseDurationBlock st c) c) c) c).2
  rw [ht, ha, hv]

/-- C5 counterexample: metadata extraction is not write-once.  A first chunk
sets the total duration to 600 s; a second duration-bearing chunk then
overwrites it to 1200 s instead of keeping the first extraction, and a second
video-descriptor chunk likewise overwrites the captured video codec. -/
theorem claim_C5_counterexample :
    (parseFFmpegOutput {} "Duration: 00:10:00.00").videoDuration = 600 ∧
    (parseFFmpegOutput (parseFFmpegOutput {} "Duration: 00:10:00.00")
        "Duration: 00:20:00.00").videoDuration = 1200 ∧
    (parseFFmpegOutput (parseFFmpegOutput {} "Duration: 00:10:00.00")
        "Duration: 00:20:00.00").videoDuration ≠
      (parseFFmpegOutput {} "Duration: 00:10:00.00").videoDuration ∧
    (parseFFmpegOutput {} "Stream #0:0: Video: h264").metadata.videoCodec =
      some "h264" ∧
    (parseFFmpegOutput (parseFFmpegOutput {} "Stream #0:0: Video: h264")
        "Stream #0:0: Video: vp9").metadata.videoCodec = some "vp9" := by
  have e1 : (parseFFmpegOutput {} "Duration: 00:10:00.00").videoDuration = 600 := by
    rw [(parseFFmpegOutput_duration {} "Duration: 00:10:00.00" (0, 10, 0)
      (by decide) (by decide)).1]
    norm_num [clockSeconds]
  have e2 : (parseFFmpegOutput (parseFFmpegOutput {} "Duration: 00:10:00.00")
      "Duration: 00:20:00.00").videoDuration = 1200 := by
    rw [(parseFFmpegOutput_duration _ "Duration: 00:20:00.00" (0, 20, 0)
      (by decide) (by decide)).1]
    norm_num [clockSeconds]
  refine ⟨e1, e2, ?_, ?_, ?_⟩
  · rw [e1, e2]
    norm_num
  · exact parseFFmpegOutput_codec {} "Stream #0:0: Video: h264" "h264"
      (by decide) (by decide) (by decide)
  · exact parseFFmpegOutput_codec _ "Stream #0:0: Video: vp9" "vp9"
      (by decide) (by decide) (by decide)

/-- C5 (amended): metadata extraction is last-write-wins, not write-once: for
every prior parse state, a chunk whose duration pattern matches re-extracts
and overwrites the total duration (and `metadata.duration`), and a chunk whose
video-descriptor pattern matches overwrites the captured video codec; an
already-populated field does not block the update. -/
theorem claim_C5_last_write_wins (st : ParseState) (c : String) :
    (∀ t : Nat × Nat × Nat, strContains "Duration:" c = true →
      findClockAfter "Duration: ".data c.data = some t →
      (parseFFmpegOutput st c).videoDuration = clockSeconds t ∧
      (parseFFmpegOutput st c).metadata.duration = some (clockSeconds t)) ∧
    (∀ w : String, strContains "Stream #" c = true →
      strContains "Video:" c = true →
      scanFor (wordAfterHere "Video: ".data) c.data = some w →
      (parseFFmpegOutput st c).metadata.videoCodec = some w) := by
  constructor
  · intro t h1 hm
    exact parseFFmpegOutput_duration st c t h1 hm
  · intro w h1 h2 hm
    exact parseFFmpegOutput_codec st c w h1 h2 hm

theorem claim_C5_witness :
    (strContains "Duration:" "Duration: 00:20:00.00" = true ∧
      findClockAfter "Duration: ".data "Duration: 00:20:00.00".data =
        some (0, 20, 0)) ∧
    (parseFFmpegOutput (parseFFmpegOutput {} "Duration: 00:10:00.00")
        "Duration: 00:20:00.00").videoDuration = clockSeconds (0, 20, 0) := by
  refine ⟨⟨by decide, by decide⟩, ?_⟩
  exact ((claim_C5_last_write_wins
    (parseFFmpegOutput {} "Duration: 00:10:00.00") "Duration: 00:20:00.00").1
    (0, 20, 0) (by decide) (by decide)).1

/-! ### Heap lemmas and the snapshot aliasing property -/

/-- Auxiliary: writing a cell through a valid reference is read back. -/
theorem Heap.get_set_self (h : Heap) (r : Nat) (v : List String)
    (hr : r < h.cells.length) : (h.set r v).get r = v := by
  unfold Heap.get Heap.set
  simp [List.getD_eq_getElem?_getD, List.getElem?_set_self', hr]

/-- C8 counterexample: create a monitor, record one error, take the snapshot
returned by `getStatus` and push onto its `errors` array: the tracker's
internal error list changes from `["e1"]` to `["e1", "x"]` — the snapshot
aliases the live internal list instead of being an immutable copy. -/
theorem claim_C8_counterexample :
    let m := HealthMonitor.new ⟨[]⟩
    let r1 := recordErrorRef m.1 m.2 "e1"
    let v := getStatus r1.1
    let h2 := r1.2.set v.errorsRef (r1.2.get v.errorsRef ++ ["x"])
    r1.2.get r1.1.errorsRef = ["e1"] ∧
    h2.get r1.1.errorsRef = ["e1", "x"] ∧
    h2.get r1.1.errorsRef ≠ r1.2.get r1.1.errorsRef := by
  refine ⟨rfl, rfl, ?_⟩
  decide

/-- C8 (amended): `getStatus` returns a shallow copy — the scalar fields are
copied by value, but the `errors` field of the returned status is the same
array reference as the monitor's internal list (after any `recordError`), so a
client push through the snapshot is visible in the tracker's internal state. -/
theorem claim_C8_shallow_copy (st : MonitorState) (h : Heap) (msg x : String) :
    (getStatus (recordErrorRef st h msg).1).errorsRef =
      (recordErrorRef st h msg).1.errorsRef ∧
    ((recordErrorRef st h msg).1.errorsRef <
        (recordErrorRef st h msg).2.cells.length →
      ((recordErrorRef st h msg).2.set
          (getStatus (recordErrorRef st h msg).1).errorsRef
          ((recordErrorRef st h msg).2.get
            (getStatus (recordErrorRef st h msg).1).errorsRef ++ [x])).get
        (recordErrorRef st h msg).1.errorsRef =
      (recordErrorRef st h msg).2.get (recordErrorRef st h msg).1.errorsRef ++ [x]) := by
  have halias : (getStatus (recordErrorRef st h msg).1).errorsRef =
      (recordErrorRef st h msg).1.errorsRef := by
    unfold recordErrorRef getStatus
    dsimp only
    split <;> rfl
  refine ⟨halias, ?_⟩
  intro hr
  rw [halias]
  exact Heap.get_set_self (recordErrorRef st h msg).2
    (recordErrorRef st h msg).1.errorsRef _ hr

theorem claim_C8_witness :
    ((recordErrorRef ⟨0, 1, 0, 0⟩ ⟨[[], []]⟩ "e1").1.errorsRef <
      (recordErrorRef ⟨0, 1, 0, 0⟩ ⟨[[], []]⟩ "e1").2.cells.length) ∧
    ((recordErrorRef ⟨0, 1, 0, 0⟩ ⟨[[], []]⟩ "e1").2.set
        (getStatus (recordErrorRef ⟨0, 1, 0, 0⟩ ⟨[[], []]⟩ "e1").1).errorsRef
        ((recordErrorRef ⟨0, 1, 0, 0⟩ ⟨[[], []]⟩ "e1").2.get
          (getStatus (recordErrorRef ⟨0, 1, 0, 0⟩ ⟨[[], []]⟩ "e1").1).errorsRef ++
          ["x"])).get
      (recordErrorRef ⟨0, 1, 0, 0⟩ ⟨[[], []]⟩ "e1").1.errorsRef =
    (recordErrorRef ⟨0, 1, 0, 0⟩ ⟨[[], []]⟩ "e1").2.get
      (recordErrorRef ⟨0, 1, 0, 0⟩ ⟨[[], []]⟩ "e1").1.errorsRef ++ ["x"] := by
  refine ⟨by decide, ?_⟩
  exact (claim_C8_shallow_copy ⟨0, 1, 0, 0⟩ ⟨[[], []]⟩ "e1" "x").2 (by decide)

end StreamHelper
